import Mathlib

/-!
Verification of the fbar_prep core: the fact-resolution engine
(`ExchangeRate`, `Facts`, `ReportContext`), the account date queries
(`AccountDefinition.open_on` / `open_during`), and the cross-referential
user-data loader (`UserDataVisitor::visit_map`), shallowly embedded from
the Rust sources.
-/

deriving instance DecidableEq for Except

namespace FBar

/-!
## Model of `f64`

The Rust core stores exchange rates and amounts as `f64`.  We model an
`f64` value as either NaN or an exact rational number.  This idealizes
finite-precision binary arithmetic as exact rational arithmetic (the
properties verified here concern the algorithms, not bit-level float
error), while keeping the IEEE behaviours the code's control flow
depends on: every comparison involving NaN is false, and NaN propagates
through arithmetic and rounding.  Division by zero (±∞ in IEEE, never
exercised by the verified properties) is mapped to NaN.
-/

inductive F64 where
  | nan : F64
  | num (q : ℚ) : F64
deriving DecidableEq, Repr

namespace F64

/-- IEEE `<=`: false whenever either operand is NaN. -/
def le : F64 → F64 → Bool
  | num a, num b => decide (a ≤ b)
  | _, _ => false

/-- IEEE `<`: false whenever either operand is NaN. -/
def lt : F64 → F64 → Bool
  | num a, num b => decide (a < b)
  | _, _ => false

/-- Multiplication; NaN propagates. -/
def mul : F64 → F64 → F64
  | num a, num b => num (a * b)
  | _, _ => nan

/-- Division; NaN propagates, and division by zero is collapsed to NaN. -/
def div : F64 → F64 → F64
  | num a, num b => if b = 0 then nan else num (a / b)
  | _, _ => nan

end F64

/-- Rounding to the nearest integer with half-way cases away from zero,
on rationals: the semantics of Rust's `f64::round`. -/
def awayRound (q : ℚ) : ℤ :=
  if 0 ≤ q then ⌊q + 1 / 2⌋ else -⌊-q + 1 / 2⌋

/-- `f64::round`; NaN propagates. -/
def F64.round : F64 → F64
  | num q => num ((awayRound q : ℚ))
  | nan => nan

/-- Rounding to 2 decimal places, round-half-to-nearest (ties away from
zero): the spec-level description of the rounding performed by the
conversion functions. -/
def roundHalfToNearest2 : F64 → F64
  | F64.num q => F64.num ((awayRound (q * 100) : ℚ) / 100)
  | F64.nan => F64.nan

/-!
## Model of `str::to_lowercase`

The currency codes manipulated by the program are ASCII; this models
Rust's `to_lowercase` on the ASCII range (mapping `A`..`Z`, code points
65..90, to the character 32 code points higher) and leaves every other
character unchanged.
-/

def char_to_lowercase (c : Char) : Char :=
  if 65 ≤ c.toNat ∧ c.toNat ≤ 90 then Char.ofNat (c.toNat + 32) else c

def to_lowercase (s : String) : String :=
  ⟨s.data.map char_to_lowercase⟩

theorem char_to_lowercase_idem (c : Char) :
    char_to_lowercase (char_to_lowercase c) = char_to_lowercase c := by
  by_cases h : 65 ≤ c.toNat ∧ c.toNat ≤ 90
  · simp only [char_to_lowercase, if_pos h]
    obtain ⟨h1, h2⟩ := h
    generalize c.toNat = n at h1 h2
    interval_cases n <;> decide
  · simp only [char_to_lowercase, if_neg h]

theorem list_map_lowercase_idem (l : List Char) :
    (l.map char_to_lowercase).map char_to_lowercase = l.map char_to_lowercase := by
  induction l with
  | nil => rfl
  | cons c rest ih => simp [char_to_lowercase_idem, ih]

theorem to_lowercase_idem (s : String) :
    to_lowercase (to_lowercase s) = to_lowercase s := by
  cases s with
  | mk data =>
    show String.mk ((data.map char_to_lowercase).map char_to_lowercase)
      = String.mk (data.map char_to_lowercase)
    rw [list_map_lowercase_idem]

/-!
## `ExchangeRate` (src/facts/exchange_rate.rs)
-/

structure ExchangeRate where
  currency_code : String
  rate : F64
deriving DecidableEq, Repr

namespace ExchangeRate

/-- `ExchangeRate::new`: fails when `rate <= 0.0` (IEEE comparison),
otherwise lowercases the currency code and stores the rate unchanged. -/
def new (currency_code : String) (rate : F64) : Except String ExchangeRate :=
  if F64.le rate (F64.num 0) then .error "Exchange rate must be greater than 0"
  else .ok { currency_code := to_lowercase currency_code, rate := rate }

/-- `ExchangeRate::convert_from_usd`: `amount * rate`, then
`(result * 100.0).round() / 100.0`. -/
def convert_from_usd (self : ExchangeRate) (amount : F64) : F64 :=
  F64.div (F64.round (F64.mul (F64.mul amount self.rate) (F64.num 100))) (F64.num 100)

/-- `ExchangeRate::convert_to_usd`: `amount / rate`, then
`(result * 100.0).round() / 100.0`. -/
def convert_to_usd (self : ExchangeRate) (amount : F64) : F64 :=
  F64.div (F64.round (F64.mul (F64.div amount self.rate) (F64.num 100))) (F64.num 100)

end ExchangeRate

/-!
## `Facts` / `AnnualFact` (src/facts/mod.rs)
-/

structure AnnualFact where
  year : Int
  exchange_rates : List ExchangeRate
deriving DecidableEq, Repr

structure Facts where
  years : List AnnualFact
deriving DecidableEq, Repr

namespace Facts

/-- `Facts::get_exchange_rate`: lowercases the query code, finds the
first year entry equal to the query year, then the first rate in it
whose currency code equals the lowercased query code. -/
def get_exchange_rate (self : Facts) (year : Int) (currency_code : String) :
    Option ExchangeRate :=
  let lookup_code := to_lowercase currency_code
  (self.years.find? (fun annual_fact => annual_fact.year == year)).bind
    (fun annual_fact =>
      annual_fact.exchange_rates.find? (fun rate => rate.currency_code == lookup_code))

/-- `Facts::empty`: no years. -/
def empty : Facts := { years := [] }

end Facts

/-!
## `Converter` / `RateSource` (src/report_context/converter.rs)
-/

inductive RateSource where
  | UserProvided : RateSource
  | IrsProvided : RateSource
deriving DecidableEq, Repr

structure Converter where
  exchange_rate : ExchangeRate
  source : RateSource
deriving DecidableEq, Repr

/-!
## `ReportContext` (src/report_context/mod.rs)
-/

structure ReportContext where
  facts : Facts
  extensions : Facts
deriving DecidableEq, Repr

namespace ReportContext

/-- `ReportContext::new`: a missing override fact set is replaced by
`Facts::empty`. -/
def new (facts : Facts) (extensions : Option Facts) : ReportContext :=
  { facts := facts, extensions := extensions.getD Facts.empty }

/-- `ReportContext::find_exchange_rate`: lowercase the code, search the
extensions first (tag `UserProvided`), then the reference facts (tag
`IrsProvided`), else fail naming the original code and the year. -/
def find_exchange_rate (self : ReportContext) (year : Int) (currency_code : String) :
    Except String Converter :=
  let lookup_code := to_lowercase currency_code
  match self.extensions.get_exchange_rate year lookup_code with
  | some rate => .ok { exchange_rate := rate, source := RateSource.UserProvided }
  | none =>
    match self.facts.get_exchange_rate year lookup_code with
    | some rate => .ok { exchange_rate := rate, source := RateSource.IrsProvided }
    | none =>
      .error ("No exchange rate found for " ++ currency_code ++ " in year " ++ toString year)

/-- `ReportContext::convert_to_usd`. -/
def convert_to_usd (self : ReportContext) (year : Int) (source_currency : String)
    (amount : F64) : Except String F64 :=
  (self.find_exchange_rate year source_currency).map
    (fun rate => rate.exchange_rate.convert_to_usd amount)

/-- `ReportContext::convert_from_usd`. -/
def convert_from_usd (self : ReportContext) (year : Int) (target_currency : String)
    (amount : F64) : Except String F64 :=
  (self.find_exchange_rate year target_currency).map
    (fun rate => rate.exchange_rate.convert_from_usd amount)

end ReportContext

/-!
## Model of `chrono::NaiveDate`

A calendar date as year/month/day.  `chrono` orders valid dates
chronologically, which coincides with lexicographic order on
(year, month, day); `from_ymd_opt` returns `none` for an invalid
Gregorian date or a year outside chrono's representable range
(`i32::MIN >> 13 = -262144` to `i32::MAX >> 13 = 262143`).
-/

structure NaiveDate where
  y : Int
  m : Nat
  d : Nat
deriving DecidableEq, Repr

namespace NaiveDate

/-- Chronological (= lexicographic) order on dates, as a Boolean. -/
def le (a b : NaiveDate) : Bool :=
  decide (a.y < b.y ∨ (a.y = b.y ∧ (a.m < b.m ∨ (a.m = b.m ∧ a.d ≤ b.d))))

end NaiveDate

def isLeapYear (y : Int) : Bool :=
  y % 4 == 0 && (y % 100 != 0 || y % 400 == 0)

def daysInMonth (y : Int) (m : Nat) : Nat :=
  match m with
  | 1 => 31 | 3 => 31 | 5 => 31 | 7 => 31 | 8 => 31 | 10 => 31 | 12 => 31
  | 4 => 30 | 6 => 30 | 9 => 30 | 11 => 30
  | 2 => if isLeapYear y then 29 else 28
  | _ => 0

/-- `NaiveDate::from_ymd_opt`. -/
def from_ymd_opt (y : Int) (m d : Nat) : Option NaiveDate :=
  if -262144 ≤ y ∧ y ≤ 262143 ∧ 1 ≤ m ∧ m ≤ 12 ∧ 1 ≤ d ∧ d ≤ daysInMonth y m
  then some { y := y, m := m, d := d }
  else none

/-!
## `Provider` / `AccountDefinition` (src/data/provider.rs, src/data/account.rs)
-/

structure Provider where
  name : String
  handle : String
  address : String
deriving DecidableEq, Repr

structure AccountDefinition where
  handle : String
  provider_handle : String
  provider : Option Provider
  currency_code : String
  identifier1 : String
  identifier1_name : String
  identifier2 : Option String
  identifier2_name : Option String
  joint_holder_names : List String
  opening_date : NaiveDate
  closing_date : Option NaiveDate
deriving DecidableEq, Repr

namespace AccountDefinition

/-- `AccountDefinition::is_joint`. -/
def is_joint (self : AccountDefinition) : Bool :=
  !self.joint_holder_names.isEmpty

/-- `AccountDefinition::open_on`:
`opening_date <= date && closing_date.map_or(true, |cd| cd >= date)`. -/
def open_on (self : AccountDefinition) (date : NaiveDate) : Bool :=
  NaiveDate.le self.opening_date date &&
    (match self.closing_date with
     | none => true
     | some closing_date => NaiveDate.le date closing_date)

/-- `AccountDefinition::open_during`: builds Jan 1 and Dec 31 of the
year with `from_ymd_opt(..).unwrap()` and compares.  The `unwrap` panic
on an unrepresentable year is modelled as `none`. -/
def open_during (self : AccountDefinition) (year : Int) : Option Bool :=
  match from_ymd_opt year 1 1, from_ymd_opt year 12 31 with
  | some year_start, some year_end =>
    some (NaiveDate.le self.opening_date year_end &&
      (match self.closing_date with
       | none => true
       | some date => NaiveDate.le year_start date))
  | _, _ => none

end AccountDefinition

/-!
## `UserData` and the deserialization visitor
(src/data/mod.rs, src/data/user_data_deserializer.rs)

A parsed document is modelled as the sequence of typed top-level fields
the YAML parser hands to `UserDataVisitor::visit_map`.
-/

structure UserData where
  providers : List Provider
  fact_extensions : Option Facts
  accounts : Option (List AccountDefinition)
deriving DecidableEq, Repr

/-- One top-level field of the user document, in document order. -/
inductive FieldVal where
  | providers (ps : List Provider) : FieldVal
  | fact_extensions (f : Facts) : FieldVal
  | accounts (raw : List AccountDefinition) : FieldVal
deriving DecidableEq, Repr

/-- The serde deserialization errors raised by the visitor. -/
inductive DeError where
  | custom (msg : String) : DeError
  | missingField (name : String) : DeError
deriving DecidableEq, Repr

/-- The account-resolution loop inside `visit_map`: for each account in
order, find the first already-parsed provider with a matching handle,
failing on the first account without one. -/
def resolveAccounts (providers_ref : List Provider) :
    List AccountDefinition → Except DeError (List AccountDefinition)
  | [] => .ok []
  | account :: rest =>
    match providers_ref.find? (fun p => p.handle == account.provider_handle) with
    | none =>
      .error (.custom ("account " ++ account.handle ++ " references unknown provider "
        ++ account.provider_handle))
    | some p =>
      (resolveAccounts providers_ref rest).map
        (fun resolved => { account with provider := some p } :: resolved)

/-- The field loop of `UserDataVisitor::visit_map`, with the three
mutable locals as accumulators. -/
def visitMapGo : List FieldVal → Option (List Provider) → Option Facts →
    Option (List AccountDefinition) → Except DeError UserData
  | [], providers, fact_extensions, accounts =>
    match providers with
    | none => .error (.missingField "providers")
    | some ps =>
      .ok { providers := ps, fact_extensions := fact_extensions, accounts := accounts }
  | FieldVal.providers ps :: rest, _, fact_extensions, accounts =>
    visitMapGo rest (some ps) fact_extensions accounts
  | FieldVal.fact_extensions f :: rest, providers, _, accounts =>
    visitMapGo rest providers (some f) accounts
  | FieldVal.accounts raw :: rest, providers, fact_extensions, _ =>
    match providers with
    | none => .error (.custom "accounts must come after providers in YAML")
    | some ps =>
      match resolveAccounts ps raw with
      | .error e => .error e
      | .ok resolved => visitMapGo rest (some ps) fact_extensions (some resolved)

/-- `UserDataVisitor::visit_map`, starting from all-unset locals. -/
def visit_map (fields : List FieldVal) : Except DeError UserData :=
  visitMapGo fields none none none

/-- True when a field sequence consists only of `fact_extensions`
entries (no `providers`, no `accounts`). -/
def onlyFactExtensions : List FieldVal → Bool
  | [] => true
  | FieldVal.fact_extensions _ :: rest => onlyFactExtensions rest
  | _ => false

/-!
## Sample data used by the concrete instantiations below
-/

def accStillOpen : AccountDefinition :=
  { handle := "test", provider_handle := "test_provider", provider := none,
    currency_code := "USD", identifier1 := "123", identifier1_name := "account",
    identifier2 := none, identifier2_name := none, joint_holder_names := [],
    opening_date := { y := 2023, m := 1, d := 1 }, closing_date := none }

def accClosed : AccountDefinition :=
  { accStillOpen with closing_date := some { y := 2024, m := 6, d := 30 } }

/-!
## Theorems
-/

/-- Claim C3: `ExchangeRate::new` fails exactly when `rate <= 0.0`
evaluates true, and for `rate > 0` it succeeds, lowercasing the currency
code and keeping the rate unchanged. -/
theorem exchange_rate_new_spec (code : String) (rate : F64) :
    ((∃ e, ExchangeRate.new code rate = .error e) ↔ F64.le rate (F64.num 0) = true)
    ∧ (F64.lt (F64.num 0) rate = true →
        ExchangeRate.new code rate = .ok { currency_code := to_lowercase code, rate := rate }) := by
  constructor
  · constructor
    · rintro ⟨e, he⟩
      by_cases h : F64.le rate (F64.num 0) = true
      · exact h
      · simp [ExchangeRate.new, h] at he
    · intro h
      exact ⟨"Exchange rate must be greater than 0", by simp [ExchangeRate.new, h]⟩
  · intro h
    have hle : F64.le rate (F64.num 0) = false := by
      cases rate with
      | nan => rfl
      | num q =>
        simp only [F64.lt, decide_eq_true_eq] at h
        simp only [F64.le, decide_eq_false_iff_not, not_le]
        exact h
    simp [ExchangeRate.new, hle]

/-- Witness for claim C3: rate 0.85 with codes of all three casings
succeeds yielding code `eur`; rate 0 and rate -1 fail. -/
theorem exchange_rate_new_spec_witness :
    ExchangeRate.new "EUR" (F64.num (85 / 100))
      = .ok { currency_code := to_lowercase "EUR", rate := F64.num (85 / 100) }
    ∧ ExchangeRate.new "eUr" (F64.num (85 / 100))
      = .ok { currency_code := to_lowercase "eUr", rate := F64.num (85 / 100) }
    ∧ to_lowercase "EUR" = "eur" ∧ to_lowercase "eUr" = "eur" ∧ to_lowercase "eur" = "eur"
    ∧ (∃ e, ExchangeRate.new "eur" (F64.num 0) = .error e)
    ∧ (∃ e, ExchangeRate.new "eur" (F64.num (-1)) = .error e) :=
  ⟨(exchange_rate_new_spec "EUR" (F64.num (85 / 100))).2
      (by simp only [F64.lt, decide_eq_true_eq]; norm_num),
   (exchange_rate_new_spec "eUr" (F64.num (85 / 100))).2
      (by simp only [F64.lt, decide_eq_true_eq]; norm_num),
   by decide, by decide, by decide,
   (exchange_rate_new_spec "eur" (F64.num 0)).1.mpr (by decide),
   (exchange_rate_new_spec "eur" (F64.num (-1))).1.mpr (by decide)⟩

/-- Claim C9: the `rate <= 0.0` check is false for NaN, so
`ExchangeRate::new` accepts a NaN rate, producing a rate that is
neither positive nor `<= 0`, whose conversions return NaN. -/
theorem exchange_rate_new_accepts_nan (code : String) (amount : ℚ) :
    ExchangeRate.new code F64.nan
      = .ok { currency_code := to_lowercase code, rate := F64.nan }
    ∧ F64.le F64.nan (F64.num 0) = false
    ∧ F64.lt (F64.num 0) F64.nan = false
    ∧ ExchangeRate.convert_from_usd
        { currency_code := to_lowercase code, rate := F64.nan } (F64.num amount) = F64.nan
    ∧ ExchangeRate.convert_to_usd
        { currency_code := to_lowercase code, rate := F64.nan } (F64.num amount) = F64.nan :=
  ⟨rfl, rfl, rfl, rfl, rfl⟩

/-- Claim C7: `open_on(date)` is true iff `opening_date <= date` and the
closing date, when present, is `>= date` (inclusive closing date). -/
theorem open_on_iff (a : AccountDefinition) (date : NaiveDate) :
    a.open_on date = true ↔
      (NaiveDate.le a.opening_date date = true ∧
        ∀ cd, a.closing_date = some cd → NaiveDate.le date cd = true) := by
  unfold AccountDefinition.open_on
  cases h : a.closing_date with
  | none => simp [h]
  | some cd => simp [h]

/-- Witness for claim C7: an account closed 2024-06-30 is open on its
closing date. -/
theorem open_on_iff_witness :
    accClosed.open_on { y := 2024, m := 6, d := 30 } = true :=
  (open_on_iff accClosed { y := 2024, m := 6, d := 30 }).mpr
    ⟨by decide, fun cd h => by
      rw [show accClosed.closing_date = some { y := 2024, m := 6, d := 30 } from rfl] at h
      injection h with h2
      rw [← h2]
      decide⟩

/-- Claim C6: constructing the report context with no override fact set
behaves identically to constructing it with an override containing zero
years: same resolution (rate and provenance) and conversion results. -/
theorem report_context_empty_override (facts ov : Facts) (year : Int)
    (code : String) (amount : F64) (h : ov.years = []) :
    (ReportContext.new facts none).find_exchange_rate year code
      = (ReportContext.new facts (some ov)).find_exchange_rate year code
    ∧ (ReportContext.new facts none).convert_to_usd year code amount
      = (ReportContext.new facts (some ov)).convert_to_usd year code amount
    ∧ (ReportContext.new facts none).convert_from_usd year code amount
      = (ReportContext.new facts (some ov)).convert_from_usd year code amount := by
  cases ov with
  | mk years =>
    cases h
    exact ⟨rfl, rfl, rfl⟩

/-- Witness for claim C6 at a concrete reference fact set, year, code
and amount. -/
theorem report_context_empty_override_witness :
    (ReportContext.new
        { years := [{ year := 2023,
                      exchange_rates := [{ currency_code := "eur", rate := F64.num (85 / 100) }] }] }
        none).find_exchange_rate 2023 "EUR"
      = (ReportContext.new
          { years := [{ year := 2023,
                        exchange_rates := [{ currency_code := "eur", rate := F64.num (85 / 100) }] }] }
          (some Facts.empty)).find_exchange_rate 2023 "EUR" :=
  (report_context_empty_override
    { years := [{ year := 2023,
                  exchange_rates := [{ currency_code := "eur", rate := F64.num (85 / 100) }] }] }
    Facts.empty 2023 "EUR" (F64.num 1) rfl).1

theorem from_ymd_opt_jan1 (year : Int) (h1 : -262144 ≤ year) (h2 : year ≤ 262143) :
    from_ymd_opt year 1 1 = some { y := year, m := 1, d := 1 } := by
  unfold from_ymd_opt
  rw [if_pos]
  exact ⟨h1, h2, Nat.le_refl 1, by omega, Nat.le_refl 1,
    by rw [show daysInMonth year 1 = 31 from rfl]; omega⟩

theorem from_ymd_opt_dec31 (year : Int) (h1 : -262144 ≤ year) (h2 : year ≤ 262143) :
    from_ymd_opt year 12 31 = some { y := year, m := 12, d := 31 } := by
  unfold from_ymd_opt
  rw [if_pos]
  exact ⟨h1, h2, by omega, Nat.le_refl 12, by omega,
    by rw [show daysInMonth year 12 = 31 from rfl]⟩

theorem from_ymd_opt_out_of_range (year : Int) (m d : Nat)
    (hy : year < -262144 ∨ 262143 < year) : from_ymd_opt year m d = none := by
  unfold from_ymd_opt
  rw [if_neg]
  rintro ⟨ha, hb, -⟩
  rcases hy with hy | hy <;> omega

/-- Claim C10: `open_during` is not total: for every year outside
chrono's representable range the `from_ymd_opt(..).unwrap()` calls panic
(modelled as `none`); for every representable year a boolean is
returned.  (`open_on` constructs no dates and is embedded as a total
`Bool`-valued function.) -/
theorem open_during_totality (a : AccountDefinition) (year : Int) :
    ((year < -262144 ∨ 262143 < year) → a.open_during year = none)
    ∧ (-262144 ≤ year → year ≤ 262143 → (a.open_during year).isSome = true) := by
  constructor
  · intro hy
    unfold AccountDefinition.open_during
    rw [from_ymd_opt_out_of_range year 1 1 hy]
  · intro h1 h2
    unfold AccountDefinition.open_during
    rw [from_ymd_opt_jan1 year h1 h2, from_ymd_opt_dec31 year h1 h2]
    rfl

/-- Witness for claim C10: year 262144 panics, year 2023 returns a
boolean. -/
theorem open_during_totality_witness :
    accStillOpen.open_during 262144 = none
    ∧ (accStillOpen.open_during 2023).isSome = true :=
  ⟨(open_during_totality accStillOpen 262144).1 (Or.inr (by decide)),
   (open_during_totality accStillOpen 2023).2 (by decide) (by decide)⟩

/-- Counterexample to claim C8 as stated over every year: for an account
opened 2023-01-01 with no closing date and year 262144, the open
interval does intersect the year (the claimed condition holds), but
`open_during` panics (`none`) instead of returning true. -/
theorem open_during_out_of_range_cex :
    accStillOpen.open_during 262144 = none
    ∧ NaiveDate.le accStillOpen.opening_date { y := 262144, m := 12, d := 31 } = true
    ∧ accStillOpen.closing_date = none := by
  refine ⟨?_, by decide, rfl⟩
  decide

/-- Claim C8 (amended to years within chrono's representable range):
`open_during(year)` returns true iff `opening_date <= Dec 31 of year`
and (`closing_date` absent or `closing_date >= Jan 1 of year`). -/
theorem open_during_iff (a : AccountDefinition) (year : Int)
    (h1 : -262144 ≤ year) (h2 : year ≤ 262143) :
    ∃ b, a.open_during year = some b
      ∧ (b = true ↔
          (NaiveDate.le a.opening_date { y := year, m := 12, d := 31 } = true
           ∧ ∀ cd, a.closing_date = some cd →
               NaiveDate.le { y := year, m := 1, d := 1 } cd = true)) := by
  unfold AccountDefinition.open_during
  rw [from_ymd_opt_jan1 year h1 h2, from_ymd_opt_dec31 year h1 h2]
  refine ⟨_, rfl, ?_⟩
  cases h : a.closing_date with
  | none => simp [h]
  | some cd => simp [h]

/-- Witness for claim C8: an account opened 2023-01-01 and closed
2024-06-30 is open during 2024. -/
theorem open_during_iff_witness : accClosed.open_during 2024 = some true := by
  obtain ⟨b, hb, hiff⟩ := open_during_iff accClosed 2024 (by decide) (by decide)
  have hbt : b = true := hiff.mpr ⟨by decide, fun cd h => by
    have h2 : some { y := 2024, m := 6, d := 30 } = some cd := h
    injection h2 with h3
    rw [← h3]
    decide⟩
  rw [hb, hbt]

theorem get_exchange_rate_lowercase (f : Facts) (year : Int) (code : String) :
    f.get_exchange_rate year (to_lowercase code) = f.get_exchange_rate year code := by
  simp only [Facts.get_exchange_rate, to_lowercase_idem]

def factsRef : Facts :=
  { years := [{ year := 2023,
                exchange_rates := [{ currency_code := "eur", rate := F64.num 1 },
                                   { currency_code := "chf", rate := F64.num 2 }] }] }

def factsExt : Facts :=
  { years := [{ year := 2023,
                exchange_rates := [{ currency_code := "eur", rate := F64.num 3 }] }] }

/-- Claim C1: `find_exchange_rate` normalizes the code to lowercase and
performs the first-match year/currency search on the override fact set
first (provenance `UserProvided`), falls back to the identical search on
the reference fact set (provenance `IrsProvided`, the spec's
`ReferenceProvided`), and otherwise fails with an error naming the
original, non-normalized currency code and the year. -/
theorem find_exchange_rate_spec (facts ext : Facts) (year : Int) (code : String) :
    (∀ r, ext.get_exchange_rate year code = some r →
        (ReportContext.new facts (some ext)).find_exchange_rate year code
          = .ok { exchange_rate := r, source := RateSource.UserProvided })
    ∧ (ext.get_exchange_rate year code = none →
        ∀ r, facts.get_exchange_rate year code = some r →
          (ReportContext.new facts (some ext)).find_exchange_rate year code
            = .ok { exchange_rate := r, source := RateSource.IrsProvided })
    ∧ (ext.get_exchange_rate year code = none →
        facts.get_exchange_rate year code = none →
          (ReportContext.new facts (some ext)).find_exchange_rate year code
            = .error ("No exchange rate found for " ++ code ++ " in year " ++ toString year)) := by
  have hext : (ReportContext.new facts (some ext)).extensions = ext := rfl
  have hfacts : (ReportContext.new facts (some ext)).facts = facts := rfl
  refine ⟨?_, ?_, ?_⟩
  · intro r h
    unfold ReportContext.find_exchange_rate
    dsimp only
    rw [hext, get_exchange_rate_lowercase, h]
  · intro hnone r h
    unfold ReportContext.find_exchange_rate
    dsimp only
    rw [hext, hfacts, get_exchange_rate_lowercase, get_exchange_rate_lowercase, hnone, h]
  · intro hnone1 hnone2
    unfold ReportContext.find_exchange_rate
    dsimp only
    rw [hext, hfacts, get_exchange_rate_lowercase, get_exchange_rate_lowercase, hnone1,
      hnone2]

/-- Witness for claim C1: override hit (`UserProvided`), fall-through to
the reference set (`IrsProvided`), and the failure naming the original
code and year. -/
theorem find_exchange_rate_spec_witness :
    (ReportContext.new factsRef (some factsExt)).find_exchange_rate 2023 "EUR"
      = .ok { exchange_rate := { currency_code := "eur", rate := F64.num 3 },
              source := RateSource.UserProvided }
    ∧ (ReportContext.new factsRef (some factsExt)).find_exchange_rate 2023 "CHF"
      = .ok { exchange_rate := { currency_code := "chf", rate := F64.num 2 },
              source := RateSource.IrsProvided }
    ∧ (ReportContext.new factsRef (some factsExt)).find_exchange_rate 2023 "xyz"
      = .error ("No exchange rate found for " ++ "xyz" ++ " in year " ++ toString (2023 : Int)) :=
  ⟨(find_exchange_rate_spec factsRef factsExt 2023 "EUR").1
      { currency_code := "eur", rate := F64.num 3 } (by decide),
   (find_exchange_rate_spec factsRef factsExt 2023 "CHF").2.1 (by decide)
      { currency_code := "chf", rate := F64.num 2 } (by decide),
   (find_exchange_rate_spec factsRef factsExt 2023 "xyz").2.2 (by decide) (by decide)⟩

theorem convert_to_usd_eq_round (r : ExchangeRate) (amount : F64) :
    r.convert_to_usd amount = roundHalfToNearest2 (F64.div amount r.rate) := by
  unfold ExchangeRate.convert_to_usd
  cases h : F64.div amount r.rate with
  | nan => rfl
  | num q =>
    simp only [F64.mul, F64.round, roundHalfToNearest2, F64.div]
    rw [if_neg (by norm_num : ¬(100 : ℚ) = 0)]

theorem convert_from_usd_eq_round (r : ExchangeRate) (amount : F64) :
    r.convert_from_usd amount = roundHalfToNearest2 (F64.mul amount r.rate) := by
  unfold ExchangeRate.convert_from_usd
  cases h : F64.mul amount r.rate with
  | nan => rfl
  | num q =>
    simp only [F64.mul, F64.round, roundHalfToNearest2, F64.div]
    rw [if_neg (by norm_num : ¬(100 : ℚ) = 0)]

theorem awayRound_nearest (q : ℚ) : |q - (awayRound q : ℚ)| ≤ 1 / 2 := by
  unfold awayRound
  by_cases h : 0 ≤ q
  · rw [if_pos h]
    have h1 : ((⌊q + 1 / 2⌋ : ℤ) : ℚ) ≤ q + 1 / 2 := Int.floor_le _
    have h2 : q + 1 / 2 < (⌊q + 1 / 2⌋ : ℤ) + 1 := Int.lt_floor_add_one _
    rw [abs_le]
    constructor <;> push_cast at h1 h2 ⊢ <;> linarith
  · rw [if_neg h]
    have h1 : ((⌊-q + 1 / 2⌋ : ℤ) : ℚ) ≤ -q + 1 / 2 := Int.floor_le _
    have h2 : -q + 1 / 2 < (⌊-q + 1 / 2⌋ : ℤ) + 1 := Int.lt_floor_add_one _
    rw [abs_le]
    push_cast
    constructor <;> linarith

/-- Claim C4: `convert_to_usd` returns `amount / rate` and
`convert_from_usd` returns `amount * rate`, each rounded to 2 decimal
places by round-half-to-nearest (within half a cent of the exact
value), and both propagate exactly the error of the rate resolution. -/
theorem convert_usd_spec (ctx : ReportContext) (year : Int) (code : String) (amount : F64) :
    (∀ c, ctx.find_exchange_rate year code = .ok c →
        ctx.convert_to_usd year code amount
          = .ok (roundHalfToNearest2 (F64.div amount c.exchange_rate.rate))
        ∧ ctx.convert_from_usd year code amount
          = .ok (roundHalfToNearest2 (F64.mul amount c.exchange_rate.rate)))
    ∧ (∀ e, ctx.find_exchange_rate year code = .error e →
        ctx.convert_to_usd year code amount = .error e
        ∧ ctx.convert_from_usd year code amount = .error e)
    ∧ (∀ q : ℚ, roundHalfToNearest2 (F64.num q) = F64.num ((awayRound (q * 100) : ℚ) / 100)
        ∧ |q - (awayRound (q * 100) : ℚ) / 100| ≤ 1 / 200) := by
  refine ⟨?_, ?_, ?_⟩
  · intro c h
    unfold ReportContext.convert_to_usd ReportContext.convert_from_usd
    rw [h]
    exact ⟨by simp only [Except.map]; rw [convert_to_usd_eq_round],
           by simp only [Except.map]; rw [convert_from_usd_eq_round]⟩
  · intro e h
    unfold ReportContext.convert_to_usd ReportContext.convert_from_usd
    rw [h]
    exact ⟨rfl, rfl⟩
  · intro q
    refine ⟨rfl, ?_⟩
    have h := awayRound_nearest (q * 100)
    have heq : q - (awayRound (q * 100) : ℚ) / 100 = (q * 100 - (awayRound (q * 100) : ℚ)) / 100 := by
      ring
    rw [heq, abs_div, abs_of_pos (by norm_num : (0 : ℚ) < 100)]
    linarith

/-- Witness for claim C4: a successful conversion and the propagated
resolution error at concrete inputs. -/
theorem convert_usd_spec_witness :
    (ReportContext.new factsRef (some factsExt)).convert_to_usd 2023 "EUR" (F64.num 100)
      = .ok (roundHalfToNearest2 (F64.div (F64.num 100) (F64.num 3)))
    ∧ (ReportContext.new factsRef (some factsExt)).convert_to_usd 2023 "xyz" (F64.num 100)
      = .error ("No exchange rate found for " ++ "xyz" ++ " in year " ++ toString (2023 : Int)) :=
  ⟨((convert_usd_spec (ReportContext.new factsRef (some factsExt)) 2023 "EUR" (F64.num 100)).1
      { exchange_rate := { currency_code := "eur", rate := F64.num 3 },
        source := RateSource.UserProvided } (by decide)).1,
   ((convert_usd_spec (ReportContext.new factsRef (some factsExt)) 2023 "xyz" (F64.num 100)).2.1
      ("No exchange rate found for " ++ "xyz" ++ " in year " ++ toString (2023 : Int))
      (by decide)).1⟩

theorem visitMapGo_skip_fe : ∀ (pre : List FieldVal), onlyFactExtensions pre = true →
    ∀ (rest : List FieldVal) (provs : Option (List Provider)) (fe : Option Facts)
      (accs : Option (List AccountDefinition)),
      ∃ fe2, visitMapGo (pre ++ rest) provs fe accs = visitMapGo rest provs fe2 accs
  | [], _, _, _, fe, _ => ⟨fe, rfl⟩
  | FieldVal.providers _ :: _, h, _, _, _, _ => Bool.noConfusion h
  | FieldVal.accounts _ :: _, h, _, _, _, _ => Bool.noConfusion h
  | FieldVal.fact_extensions g :: pre2, h, rest, provs, _, accs =>
    visitMapGo_skip_fe pre2 h rest provs (some g) accs

theorem visitMapGo_terminal : ∀ (post : List FieldVal), onlyFactExtensions post = true →
    ∀ (ps : List Provider) (fe : Option Facts) (accs : Option (List AccountDefinition)),
      ∃ fe2, visitMapGo post (some ps) fe accs
        = .ok { providers := ps, fact_extensions := fe2, accounts := accs }
  | [], _, _, fe, _ => ⟨fe, rfl⟩
  | FieldVal.providers _ :: _, h, _, _, _ => Bool.noConfusion h
  | FieldVal.accounts _ :: _, h, _, _, _ => Bool.noConfusion h
  | FieldVal.fact_extensions g :: post2, h, ps, _, accs =>
    visitMapGo_terminal post2 h ps (some g) accs

theorem resolveAccounts_error (ps : List Provider) (raws : List AccountDefinition)
    (hbad : ∃ a ∈ raws, ps.find? (fun p => p.handle == a.provider_handle) = none) :
    ∃ a ∈ raws, ps.find? (fun p => p.handle == a.provider_handle) = none ∧
      resolveAccounts ps raws = .error (.custom ("account " ++ a.handle
        ++ " references unknown provider " ++ a.provider_handle)) := by
  induction raws with
  | nil =>
    obtain ⟨a, ha, -⟩ := hbad
    exact absurd ha (List.not_mem_nil a)
  | cons a0 rest ih =>
    by_cases h0 : ps.find? (fun p => p.handle == a0.provider_handle) = none
    · refine ⟨a0, List.mem_cons_self a0 rest, h0, ?_⟩
      simp [resolveAccounts, h0]
    · obtain ⟨a, ha, hfind⟩ := hbad
      have ha2 : a ∈ rest := by
        rcases List.mem_cons.mp ha with heq | h
        · exact absurd (heq ▸ hfind) h0
        · exact h
      obtain ⟨b, hb, hbfind, hres⟩ := ih ⟨a, ha2, hfind⟩
      refine ⟨b, List.mem_cons_of_mem a0 hb, hbfind, ?_⟩
      obtain ⟨p, hp⟩ := Option.ne_none_iff_exists'.mp h0
      simp [resolveAccounts, hp, hres, Except.map]

theorem resolveAccounts_ok (ps : List Provider) :
    ∀ (raws : List AccountDefinition) (l : List AccountDefinition),
      resolveAccounts ps raws = .ok l →
      l = raws.map (fun a =>
          { a with provider := ps.find? (fun p => p.handle == a.provider_handle) })
      ∧ ∀ a ∈ raws, (ps.find? (fun p => p.handle == a.provider_handle)).isSome = true := by
  intro raws
  induction raws with
  | nil =>
    intro l h
    have h2 : ([] : List AccountDefinition) = l := Except.ok.inj h
    refine ⟨h2.symm, ?_⟩
    intro a ha
    exact absurd ha (List.not_mem_nil a)
  | cons a0 rest ih =>
    intro l h
    cases hf : ps.find? (fun p => p.handle == a0.provider_handle) with
    | none => simp [resolveAccounts, hf] at h
    | some p =>
      have hsplit : ∃ l2, resolveAccounts ps rest = .ok l2
          ∧ l = { a0 with provider := some p } :: l2 := by
        cases hr : resolveAccounts ps rest with
        | error e => simp [resolveAccounts, hf, hr, Except.map] at h
        | ok l2 =>
          simp only [resolveAccounts, hf, hr, Except.map] at h
          exact ⟨l2, rfl, (Except.ok.inj h).symm⟩
      obtain ⟨l2, hl2, rfl⟩ := hsplit
      obtain ⟨ih1, ih2⟩ := ih l2 hl2
      constructor
      · rw [List.map_cons, ← ih1, hf]
      · intro a ha
        rcases List.mem_cons.mp ha with heq | h2
        · rw [heq, hf]
          rfl
        · exact ih2 a h2

/-- Claim C2: for a well-formed document (each top-level field at most
once, `providers` before `accounts`), the loader fails with an
"unknown provider" error naming the offending account handle and the
missing provider handle whenever some account references no parsed
provider (producing no partially loaded data), and on success every
account carries a copy of the first provider in document order whose
handle equals the account's `provider_handle`. -/
theorem user_data_loader_spec (pre mid post : List FieldVal) (ps : List Provider)
    (raws : List AccountDefinition)
    (hpre : onlyFactExtensions pre = true) (hmid : onlyFactExtensions mid = true)
    (hpost : onlyFactExtensions post = true) :
    ((∃ a ∈ raws, ps.find? (fun p => p.handle == a.provider_handle) = none) →
      ∃ a ∈ raws, ps.find? (fun p => p.handle == a.provider_handle) = none ∧
        visit_map (pre ++ FieldVal.providers ps :: (mid ++ FieldVal.accounts raws :: post))
          = .error (.custom ("account " ++ a.handle ++ " references unknown provider "
              ++ a.provider_handle)))
    ∧ (∀ ud, visit_map (pre ++ FieldVal.providers ps :: (mid ++ FieldVal.accounts raws :: post))
          = .ok ud →
        ud.providers = ps
        ∧ ∃ resolved, ud.accounts = some resolved
          ∧ resolved = raws.map (fun a =>
              { a with provider := ps.find? (fun p => p.handle == a.provider_handle) })
          ∧ ∀ a ∈ raws, (ps.find? (fun p => p.handle == a.provider_handle)).isSome = true) := by
  obtain ⟨fe0, h1⟩ := visitMapGo_skip_fe pre hpre
    (FieldVal.providers ps :: (mid ++ FieldVal.accounts raws :: post)) none none none
  obtain ⟨fe1, h3⟩ := visitMapGo_skip_fe mid hmid
    (FieldVal.accounts raws :: post) (some ps) fe0 none
  have hmain : visit_map (pre ++ FieldVal.providers ps :: (mid ++ FieldVal.accounts raws :: post))
      = visitMapGo (FieldVal.accounts raws :: post) (some ps) fe1 none := by
    unfold visit_map
    rw [h1]
    show visitMapGo (mid ++ FieldVal.accounts raws :: post) (some ps) fe0 none = _
    rw [h3]
  constructor
  · intro hbad
    obtain ⟨a, ha, hfind, herr⟩ := resolveAccounts_error ps raws hbad
    refine ⟨a, ha, hfind, ?_⟩
    rw [hmain]
    simp only [visitMapGo, herr]
  · intro ud hud
    rw [hmain] at hud
    cases hr : resolveAccounts ps raws with
    | error e =>
      simp only [visitMapGo, hr] at hud
      exact Except.noConfusion hud
    | ok resolved =>
      simp only [visitMapGo, hr] at hud
      obtain ⟨fe2, hterm⟩ := visitMapGo_terminal post hpost ps fe1 (some resolved)
      rw [hterm] at hud
      have hud2 := Except.ok.inj hud
      obtain ⟨hmap, hsome⟩ := resolveAccounts_ok ps raws resolved hr
      rw [← hud2]
      exact ⟨rfl, resolved, rfl, hmap, hsome⟩

def provBank : Provider :=
  { name := "A Very British Bank", handle := "britbank", address := "123 Main St" }

def accGood : AccountDefinition :=
  { handle := "britbank_checking", provider_handle := "britbank", provider := none,
    currency_code := "GBP", identifier1 := "12345678", identifier1_name := "account_number",
    identifier2 := none, identifier2_name := none, joint_holder_names := [],
    opening_date := { y := 2023, m := 1, d := 1 }, closing_date := none }

def accBad : AccountDefinition :=
  { accGood with handle := "orphan", provider_handle := "ghost" }

/-- Witness for claim C2: an unresolvable account fails naming both
handles; a resolvable one loads carrying the matched provider. -/
theorem user_data_loader_spec_witness :
    (∃ a ∈ [accBad], ([provBank].find? (fun p => p.handle == a.provider_handle)) = none ∧
      visit_map [FieldVal.providers [provBank], FieldVal.accounts [accBad]]
        = .error (.custom ("account " ++ a.handle ++ " references unknown provider "
            ++ a.provider_handle)))
    ∧ (({ providers := [provBank], fact_extensions := none,
          accounts := some [{ accGood with provider := some provBank }] } : UserData).providers
          = [provBank]
        ∧ ∃ resolved,
            ({ providers := [provBank], fact_extensions := none,
               accounts := some [{ accGood with provider := some provBank }] } : UserData).accounts
              = some resolved
            ∧ resolved = [accGood].map (fun a =>
                { a with provider := [provBank].find? (fun p => p.handle == a.provider_handle) })
            ∧ ∀ a ∈ [accGood],
                ([provBank].find? (fun p => p.handle == a.provider_handle)).isSome = true) :=
  ⟨(user_data_loader_spec [] [] [] [provBank] [accBad] rfl rfl rfl).1
      ⟨accBad, List.mem_singleton.mpr rfl, by decide⟩,
   (user_data_loader_spec [] [] [] [provBank] [accGood] rfl rfl rfl).2
      { providers := [provBank], fact_extensions := none,
        accounts := some [{ accGood with provider := some provBank }] } (by decide)⟩

/-- Claim C5 (amended): encountering `accounts` before any `providers`
field fails with the structural ordering error — including when
`providers` is absent entirely; a document with neither `providers` nor
`accounts` fails with the missing-required-field error for
`providers`. -/
theorem providers_ordering_spec (pre rest doc2 : List FieldVal)
    (raws : List AccountDefinition)
    (hpre : onlyFactExtensions pre = true) (hdoc2 : onlyFactExtensions doc2 = true) :
    visit_map (pre ++ FieldVal.accounts raws :: rest)
      = .error (.custom "accounts must come after providers in YAML")
    ∧ visit_map doc2 = .error (.missingField "providers") := by
  constructor
  · obtain ⟨fe0, h1⟩ := visitMapGo_skip_fe pre hpre (FieldVal.accounts raws :: rest)
      none none none
    unfold visit_map
    rw [h1]
    rfl
  · obtain ⟨fe0, h1⟩ := visitMapGo_skip_fe doc2 hdoc2 [] none none none
    unfold visit_map
    rw [← List.append_nil doc2, h1]
    rfl

/-- Witness for claim C5 at concrete documents. -/
theorem providers_ordering_spec_witness :
    visit_map [FieldVal.accounts []]
      = .error (.custom "accounts must come after providers in YAML")
    ∧ visit_map [] = .error (.missingField "providers") :=
  ⟨(providers_ordering_spec [] [] [] [] rfl rfl).1,
   (providers_ordering_spec [] [] [] [] rfl rfl).2⟩

/-- Counterexample to claim C5 as stated: a document whose `providers`
field is absent but which contains an `accounts` field fails with the
ordering error, not with the missing-required-field error the claim
asserts for every providers-less document. -/
theorem providers_ordering_cex :
    visit_map [FieldVal.accounts []]
      = .error (.custom "accounts must come after providers in YAML")
    ∧ visit_map [FieldVal.accounts []] ≠ .error (.missingField "providers") :=
  ⟨rfl, by decide⟩

end FBar
